import Mathlib

/-!
Shallow embedding of the cpp-coro-asyncio runtime: the io_engine reactor
(registry of wait operations, the do_pull pass, the destructor, the awaiters)
and the coroutine primitives (synchronous generator, lazy_task, eager_task),
translated from src/include/io_engine.hpp and src/src/io_engine.cpp.
-/

namespace CoroAsyncio

/-- Failures the runtime can attach to an operation or capture in a promise.
`sysError` models `utils::make_sys_error(msg)` (a `std::system_error` with the
errno at the call site), `pollerr`/`pollhup`/`pollnval` model the three
`poll_error` subclasses (each carries the offending descriptor), `destroyed`
models the `std::runtime_error("io_engine destroyed")` made in the destructor,
and `other` stands for an arbitrary exception thrown by user coroutine bodies. -/
inductive Err where
  | sysError (msg : String)
  | pollerr (fd : Int)
  | pollhup (fd : Int)
  | pollnval (fd : Int)
  | destroyed
  | other (n : Nat)
deriving DecidableEq, Repr

/-- Linux `<poll.h>` POLLERR flag (0x008). -/
def POLLERR : Nat := 8

/-- Linux `<poll.h>` POLLHUP flag (0x010). -/
def POLLHUP : Nat := 16

/-- Linux `<poll.h>` POLLNVAL flag (0x020). -/
def POLLNVAL : Nat := 32

/-- The three condition flags poll may report unrequested. -/
def errFlags : Nat := POLLERR ||| POLLHUP ||| POLLNVAL

/-- `io_engine::operation` as registered: resumption target identity (`id`
models the operation's address, since the registry stores `operation *`),
descriptor (`-1` = pure timer), interest mask `events`, absolute deadline
`timeout` (steady_clock time modelled as `Int`). The mutable result fields
(`revents`, `exception`) are modelled separately: `revents` travels with the
operation as the second component of a registry pair, `exception` is part of
a `Resolution`. -/
structure Operation where
  id : Nat
  fd : Int
  events : Nat
  timeout : Int
deriving DecidableEq, Repr

/-- A registry entry: the operation together with its current `revents` field
(written back by the first loop of `do_pull` from the pollfd array). Freshly
registered operations carry `revents = 0`. -/
abbrev Entry := Operation × Nat

/-- The outcome an operation is resumed with: its final `revents` and the
`exception` stored into it (none = resume normally). -/
structure Resolution where
  op : Operation
  revents : Nat
  exception : Option Err
deriving DecidableEq, Repr

/-- `io_engine::add_operation`: appends to the registry (`push_back`); the
fresh operation has `revents = 0`. -/
def add_operation (ops : List Entry) (op : Operation) : List Entry :=
  ops ++ [(op, 0)]

/-- The removal predicate of the `ret == -1` branch of `io_engine::do_pull`:
`(op->fd != -1) || (now >= op->timeout)`. -/
def failPred (now : Int) (p : Entry) : Bool :=
  decide (p.1.fd ≠ -1) || decide (p.1.timeout ≤ now)

/-- The removal predicate of the success branch of `io_engine::do_pull`:
`(op->fd != -1 && op->revents & (POLLERR | POLLHUP | POLLNVAL | op->events))
 || (now >= op->timeout)`. -/
def okPred (now : Int) (p : Entry) : Bool :=
  (decide (p.1.fd ≠ -1) && decide (p.2 &&& (errFlags ||| p.1.events) ≠ 0))
    || decide (p.1.timeout ≤ now)

/-- The per-operation classification loop of the success branch of `do_pull`:
for a descriptor-bound operation, POLLERR then POLLHUP then POLLNVAL in that
order sets the exception; otherwise (and for pure timers) none is set. -/
def okException (p : Entry) : Option Err :=
  if p.1.fd ≠ -1 then
    if p.2 &&& POLLERR ≠ 0 then some (Err.pollerr p.1.fd)
    else if p.2 &&& POLLHUP ≠ 0 then some (Err.pollhup p.1.fd)
    else if p.2 &&& POLLNVAL ≠ 0 then some (Err.pollnval p.1.fd)
    else none
  else none

/-- The exception assignment of the failure branch of `do_pull`: descriptor
bound operations get the captured system error, pure timers get none. -/
def failException (p : Entry) : Option Err :=
  if p.1.fd ≠ -1 then some (Err.sysError "poll") else none

/-- `io_engine::do_pull` after the syscall returned: `now` is the time
sampled once at the top of the pass, `pollFailed` is whether `poll_fn`
returned `-1`, and each registry entry already carries the `revents` the
syscall wrote back. Mirrors the source: `to_resume` is the order-preserving
`copy_if` of the removal predicate, the registry is `erase_if`-ed with the
same predicate BEFORE any resumption, exceptions are then assigned, and the
result is (registry at resume time, resolutions resumed in that order). -/
def do_pull (now : Int) (pollFailed : Bool) (ops : List Entry) :
    List Entry × List Resolution :=
  if pollFailed then
    (ops.filter (fun p => ! failPred now p),
     (ops.filter (failPred now)).map (fun p => ⟨p.1, p.2, failException p⟩))
  else
    (ops.filter (fun p => ! okPred now p),
     (ops.filter (okPred now)).map (fun p => ⟨p.1, p.2, okException p⟩))

/-- `io_engine::pull`: a single non-blocking `do_pull` pass (the lambda only
retries the syscall on EINTR; the pass itself is one scan, no retry loop). -/
def pull (now : Int) (pollFailed : Bool) (ops : List Entry) :
    List Entry × List Resolution :=
  do_pull now pollFailed ops

/-- The destructor loop of `io_engine::~io_engine`: while the registry is
non-empty, pop the BACK entry, store the "io_engine destroyed" exception into
it and resume it. Resolutions are therefore produced in reverse registration
order. -/
def destroy_resolutions : List Entry → List Resolution
  | [] => []
  | p :: rest => destroy_resolutions rest ++ [⟨p.1, p.2, some Err.destroyed⟩]

/-- `io_engine::~io_engine`: final registry (always empty) and the
resolutions it resumes. -/
def io_engine_destroy (ops : List Entry) : List Entry × List Resolution :=
  ([], destroy_resolutions ops)

/-- `wait_until`'s awaiter `await_resume`: rethrow the stored exception if
any, otherwise return normally (it never reads `revents`). -/
def wait_until_resume (r : Resolution) : Except Err Unit :=
  match r.exception with
  | some e => Except.error e
  | none => Except.ok ()

/-- `poll_until`'s awaiter `await_resume`: rethrow the stored exception if
any, otherwise return the operation's `revents`. -/
def poll_until_resume (r : Resolution) : Except Err Nat :=
  match r.exception with
  | some e => Except.error e
  | none => Except.ok r.revents

/-- The operation built by `io_engine::wait_until`:
`operation{nullptr, -1, 0, timeout}` (pure timer). -/
def wait_until_op (id : Nat) (timeout : Int) : Operation :=
  ⟨id, -1, 0, timeout⟩

/-- The operation built by `io_engine::poll_until`:
`operation{nullptr, fd, events, timeout}`. -/
def poll_until_op (id : Nat) (fd : Int) (events : Nat) (timeout : Int) :
    Operation :=
  ⟨id, fd, events, timeout⟩

/-- Awaiting `io_engine::wait_until` under the coroutine await protocol:
`await_ready` is `steady_clock::now() >= op.timeout`; when it returns true
the coroutine never suspends and `await_suspend` (which is the only call to
`add_operation`) never runs. Returns the registry afterwards and whether the
coroutine suspended (registered). -/
def await_wait_until (ops : List Entry) (id : Nat) (now timeout : Int) :
    List Entry × Bool :=
  if timeout ≤ now then (ops, false)
  else (add_operation ops (wait_until_op id timeout), true)

/-- Awaiting `io_engine::poll_until` under the coroutine await protocol;
same ready check as `wait_until`. -/
def await_poll_until (ops : List Entry) (id : Nat) (fd : Int) (events : Nat)
    (now timeout : Int) : List Entry × Bool :=
  if timeout ≤ now then (ops, false)
  else (add_operation ops (poll_until_op id fd events timeout), true)

/-- `io_engine::wait_for`: delegates to `wait_until(now + duration)` with the
clock sampled at the call, which is the moment of awaiting. -/
def await_wait_for (ops : List Entry) (id : Nat) (now dur : Int) :
    List Entry × Bool :=
  await_wait_until ops id now (now + dur)

/-- `io_engine::poll_for`: delegates to `poll_until(now + duration)`. -/
def await_poll_for (ops : List Entry) (id : Nat) (fd : Int) (events : Nat)
    (now dur : Int) : List Entry × Bool :=
  await_poll_until ops id fd events now (now + dur)

/-- A synchronous `generator<T>` coroutine body: the sequence of values it
`co_yield`s, followed either by `co_return` (`thrown = none`) or by throwing
an exception after the last yield (`thrown = some e`). -/
structure GenBody (T : Type) where
  yields : List T
  thrown : Option Err
deriving DecidableEq, Repr

/-- The coroutine frame of a running `generator<T>`: the not-yet-produced
suffix of the body, the promise's `value` (last `co_yield`ed, `none` models
the default-constructed initial `T value`), the promise's captured
`exception`, and whether the frame sits at `final_suspend` (`handle.done()`). -/
structure GenState (T : Type) where
  pendingYields : List T
  pendingThrow : Option Err
  value : Option T
  exception : Option Err
  done : Bool
deriving DecidableEq, Repr

/-- Creating a `generator<T>` (`initial_suspend` is `suspend_always`, so
nothing runs yet). -/
def GenState.start (b : GenBody T) : GenState T :=
  ⟨b.yields, b.thrown, none, none, false⟩

/-- `handle.resume()` on a generator frame: runs the body to its next
suspension point. A `co_yield` stores the value via `yield_value` and
suspends; running off the yields either throws — `unhandled_exception`
stores it into the promise and the frame reaches `final_suspend`
(`suspend_always`, so `done()` is true) — or `co_return`s, likewise reaching
`final_suspend`. No path rethrows out of `resume`. -/
def GenState.resumeStep (s : GenState T) : GenState T :=
  match s.pendingYields with
  | v :: rest => { s with pendingYields := rest, value := some v }
  | [] =>
    match s.pendingThrow with
    | some e =>
      { s with pendingThrow := none, exception := some e, done := true }
    | none => { s with done := true }

/-- `generator<T>::begin`: `if (*handle) handle->resume(); return {*handle};`
— resumes once (the handle is non-null for a freshly created generator) and
returns the iterator; it does NOT inspect or rethrow the promise's stored
exception. -/
def generatorBegin (b : GenBody T) : GenState T :=
  (GenState.start b).resumeStep

/-- `generator<T>::iterator::operator++`: `handle.resume();` — advances and
returns nothing; it does NOT inspect or rethrow the stored exception. -/
def GenState.inc (s : GenState T) : GenState T :=
  s.resumeStep

/-- `generator<T>::iterator::operator==(default_sentinel)`:
`!handle || handle.done()` (the handle is non-null here). -/
def GenState.atEnd (s : GenState T) : Bool :=
  s.done

/-- `generator<T>::iterator::operator*`: `handle.promise().value` — reads
the promise value, no rethrow. -/
def GenState.deref (s : GenState T) : Option T :=
  s.value

/-- A `lazy_task<T>` body abstracted to its outcome: `co_return v` gives
`Except.ok v`, an escaped exception gives `Except.error e` (captured by
`detail::promise::unhandled_exception`). -/
structure LazyBody (T : Type) where
  outcome : Except Err T

/-- The state of a `lazy_task<T>` frame: how many times the body has been
started, the promise's result once the frame is `done()` (value or captured
exception), and the stored continuation (identified by a `Nat`, modelling
the awaiting coroutine's handle; `none` is the initial `noop_coroutine`). -/
structure LazyState (T : Type) where
  runs : Nat
  result : Option (Except Err T)
  continuation : Option Nat

/-- Creating a `lazy_task<T>`: `initial_suspend` is `suspend_always`, so the
body has not run and nothing is stored. -/
def lazyCreate (T : Type) : LazyState T :=
  ⟨0, none, none⟩

/-- `co_await` on a `lazy_task<T>`: `await_ready` is `handle.done()` — if the
frame already finished, suspension is skipped and `await_resume` retrieves
the stored result (rethrowing a stored exception). Otherwise `await_suspend`
records the continuation and returns the task's handle, which runs the body
to completion; `final_suspend` transfers to the continuation and
`await_resume` then rethrows the captured exception or moves the value out.
Returns the new frame state and what the awaiter receives. -/
def lazyAwait (b : LazyBody T) (s : LazyState T) (k : Nat) :
    LazyState T × Except Err T :=
  match s.result with
  | some r => (s, r)
  | none => (⟨s.runs + 1, some b.outcome, some k⟩, b.outcome)

/-- An `eager_task<T>` body: the number of genuine internal suspension
points it passes through before completing, and its outcome. -/
structure EagerBody (T : Type) where
  suspensions : Nat
  outcome : Except Err T

/-- The state of an `eager_task<T>` frame: whether it started, how many body
segments (pieces between suspension points) have executed, whether it is
`done()`, the stored result, and the stored continuation. -/
structure EagerState (T : Type) where
  started : Bool
  segmentsRun : Nat
  done : Bool
  result : Option (Except Err T)
  continuation : Option Nat

/-- Creating an `eager_task<T>`: `initial_suspend` is `suspend_never`, so
the body runs its first segment immediately — to completion if it has no
suspension point (storing the outcome), else up to its first suspension —
before control returns to the creator. -/
def eagerCreate (b : EagerBody T) : EagerState T :=
  if b.suspensions = 0 then ⟨true, 1, true, some b.outcome, none⟩
  else ⟨true, 1, false, none, none⟩

/-- `co_await` on an `eager_task<T>`: `await_ready` is `handle.done()` — if
already finished, suspension is skipped and the stored result is returned
immediately. Otherwise `await_suspend` only records the continuation and
returns `void` (the task is already running; nothing is resumed), so the
awaiter receives nothing yet. The body is never started or restarted here. -/
def eagerAwait (s : EagerState T) (k : Nat) :
    EagerState T × Option (Except Err T) :=
  match s.result with
  | some r => (s, some r)
  | none => ({ s with continuation := some k }, none)

/-! ## Helper lemmas -/

theorem destroy_resolutions_map (ops : List Entry) :
    (destroy_resolutions ops).map Resolution.op = (ops.map Prod.fst).reverse := by
  induction ops with
  | nil => rfl
  | cons p rest ih => simp [destroy_resolutions, ih]

theorem destroy_resolutions_exception (ops : List Entry) :
    ∀ r ∈ destroy_resolutions ops, r.exception = some Err.destroyed := by
  induction ops with
  | nil => intro r hr; cases hr
  | cons p rest ih =>
    intro r hr
    rcases List.mem_append.mp hr with h | h
    · exact ih r h
    · rcases List.mem_singleton.mp h with rfl; rfl

theorem do_pull_fail_eq (now : Int) (ops : List Entry) :
    do_pull now true ops =
      (ops.filter (fun p => ! failPred now p),
       (ops.filter (failPred now)).map
         (fun p => (⟨p.1, p.2, failException p⟩ : Resolution))) := rfl

theorem do_pull_ok_eq (now : Int) (ops : List Entry) :
    do_pull now false ops =
      (ops.filter (fun p => ! okPred now p),
       (ops.filter (okPred now)).map
         (fun p => (⟨p.1, p.2, okException p⟩ : Resolution))) := rfl

theorem or_eq_zero_nat (x y : Nat) : x ||| y = 0 ↔ x = 0 ∧ y = 0 := by
  constructor
  · intro h
    have hx : x = 0 := by
      apply Nat.eq_of_testBit_eq
      intro i
      have hb := congrArg (fun n => n.testBit i) h
      simp [Nat.testBit_or] at hb
      simp [hb.1]
    have hy : y = 0 := by
      apply Nat.eq_of_testBit_eq
      intro i
      have hb := congrArg (fun n => n.testBit i) h
      simp [Nat.testBit_or] at hb
      simp [hb.2]
    exact ⟨hx, hy⟩
  · rintro ⟨rfl, rfl⟩
    rfl

theorem and_union_ne_zero (a b c : Nat) :
    a &&& (b ||| c) ≠ 0 ↔ a &&& b ≠ 0 ∨ a &&& c ≠ 0 := by
  rw [Nat.and_or_distrib_left, Ne, or_eq_zero_nat]
  tauto

theorem okPred_iff (now : Int) (p : Entry) :
    okPred now p = true ↔
      p.1.timeout ≤ now ∨
        (p.1.fd ≠ -1 ∧ (p.2 &&& p.1.events ≠ 0 ∨ p.2 &&& errFlags ≠ 0)) := by
  have h := and_union_ne_zero p.2 errFlags p.1.events
  simp only [okPred, Bool.or_eq_true, Bool.and_eq_true, decide_eq_true_eq]
  rw [h]
  tauto

/-! ## Claim theorems -/

/-- C1 (code bug witness): the synchronous generator SWALLOWS body failures.
For a body that throws immediately, `begin()` leaves the exception captured in
the promise, the iterator compares equal to the end sentinel, and the
traversal observations (`atEnd`, `deref`) are identical to those of a clean
empty body — nothing is re-raised (indeed `generatorBegin` and
`GenState.inc`, mirroring `begin()` and `operator++`, return a plain state
with no raise channel, because the source never rethrows the stored
exception). The same happens for a body that yields once and then throws:
the increment after `begin()` captures and drops the failure. -/
theorem generator_swallows_body_failure :
    (generatorBegin (⟨[], some (Err.other 7)⟩ : GenBody Nat)).exception
        = some (Err.other 7) ∧
    (generatorBegin (⟨[], some (Err.other 7)⟩ : GenBody Nat)).atEnd = true ∧
    ((generatorBegin (⟨[], some (Err.other 7)⟩ : GenBody Nat)).atEnd,
     (generatorBegin (⟨[], some (Err.other 7)⟩ : GenBody Nat)).deref)
      = ((generatorBegin (⟨[], none⟩ : GenBody Nat)).atEnd,
         (generatorBegin (⟨[], none⟩ : GenBody Nat)).deref) ∧
    (generatorBegin (⟨[3], some (Err.other 7)⟩ : GenBody Nat)).inc.exception
        = some (Err.other 7) ∧
    (generatorBegin (⟨[3], some (Err.other 7)⟩ : GenBody Nat)).inc.atEnd
        = true := by
  exact ⟨rfl, rfl, rfl, rfl, rfl⟩

/-- C5: destroying an io_engine with operations still registered empties the
registry and resumes every registered operation exactly once — the resumed
operations are exactly the registered ones, in reverse registration order —
each with the dedicated "destroyed" failure, which is distinct from the
system/IO failure constructors and (being `some`) from the no-failure
timeout outcome. -/
theorem teardown_resumes_all (ops : List Entry) :
    (io_engine_destroy ops).1 = [] ∧
    (io_engine_destroy ops).2.map Resolution.op = (ops.map Prod.fst).reverse ∧
    (∀ r ∈ (io_engine_destroy ops).2, r.exception = some Err.destroyed) ∧
    (∀ msg fd, Err.destroyed ≠ Err.sysError msg ∧
      Err.destroyed ≠ Err.pollerr fd ∧ Err.destroyed ≠ Err.pollhup fd ∧
      Err.destroyed ≠ Err.pollnval fd ∧ (some Err.destroyed ≠ (none : Option Err))) := by
  refine ⟨rfl, destroy_resolutions_map ops, destroy_resolutions_exception ops, ?_⟩
  intro msg fd
  refine ⟨?_, ?_, ?_, ?_, ?_⟩ <;> intro h <;> simp at h

/-- C7: a lazy task is cold — before any await the body has run zero times
and no result (so no failure) is observable; awaiting a task whose body
raises runs the body exactly once and delivers exactly one raise of the
stored failure to the awaiter; awaiting an already-finished task returns the
stored result without running anything. -/
theorem lazy_failure_propagation (T : Type) (e : Err) (k k2 : Nat)
    (b : LazyBody T) :
    ((lazyCreate T).runs = 0 ∧ (lazyCreate T).result = none) ∧
    (lazyAwait (⟨Except.error e⟩ : LazyBody T) (lazyCreate T) k
      = (⟨1, some (Except.error e), some k⟩, Except.error e)) ∧
    (∀ n c r, lazyAwait b (⟨n, some r, c⟩ : LazyState T) k2
      = (⟨n, some r, c⟩, r)) := by
  exact ⟨⟨rfl, rfl⟩, rfl, fun n c r => rfl⟩

/-- C8: an eager task starts at creation: creation itself runs the first
body segment, and when the body has no internal suspension point it runs to
completion (storing the outcome) before control returns to the creator;
awaiting never runs any segment (it only records the continuation), and
awaiting an already-finished task skips suspension and returns the computed
result immediately, unchanged state. -/
theorem eager_start_policy (T : Type) (out : Except Err T) (n k k2 : Nat)
    (s : EagerState T) :
    (eagerCreate (⟨0, out⟩ : EagerBody T)
      = ⟨true, 1, true, some out, none⟩) ∧
    (eagerCreate (⟨n + 1, out⟩ : EagerBody T)
      = ⟨true, 1, false, none, none⟩) ∧
    ((eagerAwait s k).1.segmentsRun = s.segmentsRun ∧
     (eagerAwait s k).1.started = s.started ∧
     (eagerAwait s k).1.done = s.done ∧
     (eagerAwait s k).1.result = s.result) ∧
    (∀ st m d c r, eagerAwait (⟨st, m, d, some r, c⟩ : EagerState T) k2
      = (⟨st, m, d, some r, c⟩, some r)) := by
  refine ⟨rfl, by simp [eagerCreate], ?_, fun st m d c r => rfl⟩
  rcases s with ⟨st, m, d, res, c⟩
  cases res <;> simp [eagerAwait]

/-- C9: a wait or poll whose deadline is already past at the moment of
awaiting is ready immediately: the awaiter skips suspension, never registers
a WaitOperation (the registry is returned unchanged), and no reactor pump is
involved; the duration wrappers delegate with deadline now + duration, so a
non-positive duration behaves the same. -/
theorem past_deadline_ready (ops : List Entry) (id : Nat)
    (now timeout dur : Int) :
    (timeout ≤ now →
      await_wait_until ops id now timeout = (ops, false) ∧
      ∀ fd events, await_poll_until ops id fd events now timeout
        = (ops, false)) ∧
    (dur ≤ 0 →
      await_wait_for ops id now dur = (ops, false) ∧
      ∀ fd events, await_poll_for ops id fd events now dur = (ops, false)) := by
  constructor
  · intro h
    constructor
    · simp [await_wait_until, h]
    · intro fd events; simp [await_poll_until, h]
  · intro h
    have h2 : now + dur ≤ now := by omega
    constructor
    · simp [await_wait_for, await_wait_until, h2]
    · intro fd events; simp [await_poll_for, await_poll_until, h2]

/-- C9 witness: at a concrete past deadline (and a concrete negative
duration) the awaiters return immediately with the registry untouched. -/
theorem past_deadline_ready_witness :
    await_wait_until [] 0 10 5 = ([], false) ∧
    await_poll_until [] 0 3 1 10 5 = ([], false) ∧
    await_wait_for [] 0 10 (-2) = ([], false) ∧
    await_poll_for [] 0 3 1 10 (-2) = ([], false) := by
  have h := past_deadline_ready [] 0 10 5 (-2)
  exact ⟨(h.1 (by decide)).1, (h.1 (by decide)).2 3 1,
    (h.2 (by decide)).1, (h.2 (by decide)).2 3 1⟩

/-- C2: when the multiplexing syscall of a pull pass fails, every
descriptor-bound operation is removed and resumed with the captured system
failure; every pure timer whose deadline has passed is removed and resumed
with no failure; every pure timer whose deadline has not passed remains
registered; and no resumed operation is anything else (every resolution is
either descriptor-bound, carrying the system failure, or an expired timer,
carrying none). -/
theorem syscall_failure_pass (now : Int) (ops : List Entry) :
    (∀ p ∈ ops, p.1.fd ≠ -1 →
      (⟨p.1, p.2, some (Err.sysError "poll")⟩ : Resolution)
          ∈ (do_pull now true ops).2 ∧
      p ∉ (do_pull now true ops).1) ∧
    (∀ p ∈ ops, p.1.fd = -1 → p.1.timeout ≤ now →
      (⟨p.1, p.2, none⟩ : Resolution) ∈ (do_pull now true ops).2 ∧
      p ∉ (do_pull now true ops).1) ∧
    (∀ p ∈ ops, p.1.fd = -1 → now < p.1.timeout →
      p ∈ (do_pull now true ops).1) ∧
    (∀ r ∈ (do_pull now true ops).2,
      (r.op.fd ≠ -1 → r.exception = some (Err.sysError "poll")) ∧
      (r.op.fd = -1 → r.exception = none ∧ r.op.timeout ≤ now)) := by
  refine ⟨?_, ?_, ?_, ?_⟩
  · intro p hp hfd
    have hpred : failPred now p = true := by simp [failPred, hfd]
    constructor
    · have h1 : p ∈ ops.filter (failPred now) := List.mem_filter.mpr ⟨hp, hpred⟩
      have h2 := List.mem_map_of_mem
        (fun q : Entry => (⟨q.1, q.2, failException q⟩ : Resolution)) h1
      rw [do_pull_fail_eq]
      simpa [failException, hfd] using h2
    · intro hmem
      rw [do_pull_fail_eq] at hmem
      have := (List.mem_filter.mp hmem).2
      simp [hpred] at this
  · intro p hp hfd ht
    have hpred : failPred now p = true := by simp [failPred, ht]
    constructor
    · have h1 : p ∈ ops.filter (failPred now) := List.mem_filter.mpr ⟨hp, hpred⟩
      have h2 := List.mem_map_of_mem
        (fun q : Entry => (⟨q.1, q.2, failException q⟩ : Resolution)) h1
      rw [do_pull_fail_eq]
      simpa [failException, hfd] using h2
    · intro hmem
      rw [do_pull_fail_eq] at hmem
      have := (List.mem_filter.mp hmem).2
      simp [hpred] at this
  · intro p hp hfd ht
    have hpred : failPred now p = false := by
      simp [failPred, hfd]
      omega
    rw [do_pull_fail_eq]
    exact List.mem_filter.mpr ⟨hp, by simp [hpred]⟩
  · intro r hr
    rw [do_pull_fail_eq] at hr
    rcases List.mem_map.mp hr with ⟨p, hpf, rfl⟩
    have hpred := (List.mem_filter.mp hpf).2
    dsimp only
    constructor
    · intro hfd
      simp [failException, hfd]
    · intro hfd
      refine ⟨by simp [failException, hfd], ?_⟩
      simp [failPred, hfd] at hpred
      exact hpred

/-- C2 witness: with the syscall failed at time 10, a descriptor-bound
operation (any deadline) is resumed with the system failure, an expired pure
timer is resumed with no failure, and an unexpired pure timer stays
registered. -/
theorem syscall_failure_pass_witness :
    ((⟨⟨0, 3, 1, 50⟩, 0, some (Err.sysError "poll")⟩ : Resolution)
        ∈ (do_pull 10 true
            [(⟨0, 3, 1, 50⟩, 0), (⟨1, -1, 0, 5⟩, 0), (⟨2, -1, 0, 100⟩, 0)]).2) ∧
    ((⟨⟨1, -1, 0, 5⟩, 0, none⟩ : Resolution)
        ∈ (do_pull 10 true
            [(⟨0, 3, 1, 50⟩, 0), (⟨1, -1, 0, 5⟩, 0), (⟨2, -1, 0, 100⟩, 0)]).2) ∧
    (((⟨2, -1, 0, 100⟩, 0) : Entry)
        ∈ (do_pull 10 true
            [(⟨0, 3, 1, 50⟩, 0), (⟨1, -1, 0, 5⟩, 0), (⟨2, -1, 0, 100⟩, 0)]).1) := by
  have h := syscall_failure_pass 10
    [(⟨0, 3, 1, 50⟩, 0), (⟨1, -1, 0, 5⟩, 0), (⟨2, -1, 0, 100⟩, 0)]
  exact ⟨(h.1 (⟨0, 3, 1, 50⟩, 0) (by decide) (by decide)).1,
    (h.2.1 (⟨1, -1, 0, 5⟩, 0) (by decide) (by decide) (by decide)).1,
    h.2.2.1 (⟨2, -1, 0, 100⟩, 0) (by decide) (by decide) (by decide)⟩

/-- C3: in a successful pull pass, a resolved descriptor-bound operation has
its single reported condition chosen by the strict priority
POLLERR > POLLHUP > POLLNVAL > ordinary readiness: POLLERR present gives the
error-condition failure carrying the descriptor regardless of other flags;
otherwise POLLHUP gives the hangup failure; otherwise POLLNVAL gives the
invalid-descriptor failure; with none of the three, no failure is stored and
the awaiter resumes normally with the observed event mask. -/
theorem condition_priority (now : Int) (ops : List Entry) :
    ∀ r ∈ (do_pull now false ops).2, r.op.fd ≠ -1 →
      (r.revents &&& POLLERR ≠ 0 →
        r.exception = some (Err.pollerr r.op.fd)) ∧
      (r.revents &&& POLLERR = 0 → r.revents &&& POLLHUP ≠ 0 →
        r.exception = some (Err.pollhup r.op.fd)) ∧
      (r.revents &&& POLLERR = 0 → r.revents &&& POLLHUP = 0 →
        r.revents &&& POLLNVAL ≠ 0 →
        r.exception = some (Err.pollnval r.op.fd)) ∧
      (r.revents &&& POLLERR = 0 → r.revents &&& POLLHUP = 0 →
        r.revents &&& POLLNVAL = 0 →
        r.exception = none ∧
        poll_until_resume r = Except.ok r.revents) := by
  intro r hr hfd
  rw [do_pull_ok_eq] at hr
  rcases List.mem_map.mp hr with ⟨p, hpf, rfl⟩
  dsimp only at hfd ⊢
  refine ⟨?_, ?_, ?_, ?_⟩
  · intro h1
    simp [okException, hfd, h1]
  · intro h1 h2
    simp [okException, hfd, h1, h2]
  · intro h1 h2 h3
    simp [okException, hfd, h1, h2, h3]
  · intro h1 h2 h3
    constructor
    · simp [okException, hfd, h1, h2, h3]
    · simp [poll_until_resume, okException, hfd, h1, h2, h3]

/-- C3 witness: a descriptor reporting POLLERR, POLLHUP, POLLNVAL and its
requested readiness bit all at once is failed with the error condition only,
carrying its descriptor. -/
theorem condition_priority_witness :
    (⟨⟨0, 5, 1, 100⟩, 57, some (Err.pollerr 5)⟩ : Resolution).exception
      = some (Err.pollerr 5) := by
  have h := condition_priority 0 [(⟨0, 5, 1, 100⟩, 57)]
    ⟨⟨0, 5, 1, 100⟩, 57, some (Err.pollerr 5)⟩ (by decide) (by decide)
  exact h.1 (by decide)

/-- C4: a non-blocking pull pass resolves an operation if and only if its
deadline has passed or (for descriptor-bound operations) its observed events
intersect its interest mask or carry error/hangup/invalid-descriptor flags;
resolved operations are removed (absent from the registry handed to the
resumptions) and resumed in that same pass, all others stay registered; in
particular with nothing ready and no deadline expired the pass resumes zero
operations and returns the registry unchanged. -/
theorem nonblocking_pass_resolution (now : Int) (ops : List Entry) :
    (∀ r ∈ (pull now false ops).2,
      r.op.timeout ≤ now ∨
        (r.op.fd ≠ -1 ∧
          (r.revents &&& r.op.events ≠ 0 ∨ r.revents &&& errFlags ≠ 0))) ∧
    (∀ p ∈ ops,
      p.1.timeout ≤ now ∨
        (p.1.fd ≠ -1 ∧ (p.2 &&& p.1.events ≠ 0 ∨ p.2 &&& errFlags ≠ 0)) →
      (⟨p.1, p.2, okException p⟩ : Resolution) ∈ (pull now false ops).2 ∧
      p ∉ (pull now false ops).1) ∧
    (∀ p ∈ ops,
      ¬(p.1.timeout ≤ now ∨
        (p.1.fd ≠ -1 ∧ (p.2 &&& p.1.events ≠ 0 ∨ p.2 &&& errFlags ≠ 0))) →
      p ∈ (pull now false ops).1) ∧
    ((∀ p ∈ ops, p.2 = 0 ∧ now < p.1.timeout) →
      pull now false ops = (ops, [])) := by
  refine ⟨?_, ?_, ?_, ?_⟩
  · intro r hr
    rw [pull, do_pull_ok_eq] at hr
    rcases List.mem_map.mp hr with ⟨p, hpf, rfl⟩
    have hpred := (List.mem_filter.mp hpf).2
    dsimp only
    exact (okPred_iff now p).mp hpred
  · intro p hp hcond
    have hpred : okPred now p = true := (okPred_iff now p).mpr hcond
    constructor
    · have h1 : p ∈ ops.filter (okPred now) := List.mem_filter.mpr ⟨hp, hpred⟩
      have h2 := List.mem_map_of_mem
        (fun q : Entry => (⟨q.1, q.2, okException q⟩ : Resolution)) h1
      rw [pull, do_pull_ok_eq]
      exact h2
    · intro hmem
      rw [pull, do_pull_ok_eq] at hmem
      have := (List.mem_filter.mp hmem).2
      simp [hpred] at this
  · intro p hp hcond
    have hpred : okPred now p = false := by
      rcases h : okPred now p
      · rfl
      · exact absurd ((okPred_iff now p).mp h) hcond
    rw [pull, do_pull_ok_eq]
    exact List.mem_filter.mpr ⟨hp, by simp [hpred]⟩
  · intro hq
    have hall : ∀ p ∈ ops, okPred now p = false := by
      intro p hp
      obtain ⟨h0, hlt⟩ := hq p hp
      rcases h : okPred now p
      · rfl
      · exfalso
        rcases (okPred_iff now p).mp h with ht | ⟨_, hor⟩
        · omega
        · rcases hor with h1 | h1 <;> simp [h0] at h1
    have hnil : ops.filter (okPred now) = [] :=
      List.filter_eq_nil_iff.mpr (by intro p hp; simp [hall p hp])
    have hself : ops.filter (fun p => ! okPred now p) = ops :=
      List.filter_eq_self.mpr (by intro p hp; simp [hall p hp])
    rw [pull, do_pull_ok_eq, hnil, hself]
    rfl

/-- C4 witness: at time 10 an expired pure timer is resolved and removed,
an unexpired, not-ready operation stays registered, and a two-operation
registry with nothing ready and no deadline expired is returned unchanged
with zero resumptions. -/
theorem nonblocking_pass_resolution_witness :
    ((⟨⟨0, -1, 0, 5⟩, 0, none⟩ : Resolution)
        ∈ (pull 10 false [(⟨0, -1, 0, 5⟩, 0), (⟨1, -1, 0, 20⟩, 0)]).2) ∧
    (((⟨1, -1, 0, 20⟩, 0) : Entry)
        ∈ (pull 10 false [(⟨0, -1, 0, 5⟩, 0), (⟨1, -1, 0, 20⟩, 0)]).1) ∧
    (pull 10 false [(⟨2, 3, 1, 100⟩, 0), (⟨4, -1, 0, 100⟩, 0)]
      = ([(⟨2, 3, 1, 100⟩, 0), (⟨4, -1, 0, 100⟩, 0)], [])) := by
  have h1 := nonblocking_pass_resolution 10 [(⟨0, -1, 0, 5⟩, 0), (⟨1, -1, 0, 20⟩, 0)]
  have h2 := nonblocking_pass_resolution 10 [(⟨2, 3, 1, 100⟩, 0), (⟨4, -1, 0, 100⟩, 0)]
  refine ⟨?_, ?_, ?_⟩
  · exact (h1.2.1 (⟨0, -1, 0, 5⟩, 0) (by decide) (Or.inl (by decide))).1
  · exact h1.2.2.1 (⟨1, -1, 0, 20⟩, 0) (by decide) (by decide)
  · exact h2.2.2.2 (by decide)

/-- C6: deadline expiry is never delivered as a failure. Under the poll
contract (a pure timer's pollfd gets no events written; a descriptor's
reported events are a subset of its interest mask plus the three condition
flags), every operation a successful pass resolves for which the descriptor
condition does not hold — pure timer, or observed events carrying no
condition flag and not meeting the interest mask — was resolved because its
deadline passed, and it resumes with an empty event mask, no stored failure,
and both awaiter resume paths returning normally. -/
theorem deadline_expiry_not_failure (now : Int) (ops : List Entry)
    (hcontract : ∀ p ∈ ops, (p.1.fd = -1 → p.2 = 0) ∧
      p.2 &&& (errFlags ||| p.1.events) = p.2) :
    ∀ r ∈ (do_pull now false ops).2,
      r.op.fd = -1 ∨ r.revents &&& (errFlags ||| r.op.events) = 0 →
      r.op.timeout ≤ now ∧ r.revents = 0 ∧ r.exception = none ∧
      poll_until_resume r = Except.ok 0 ∧
      wait_until_resume r = Except.ok () := by
  intro r hr hsole
  rw [do_pull_ok_eq] at hr
  rcases List.mem_map.mp hr with ⟨p, hpf, rfl⟩
  dsimp only at hsole ⊢
  obtain ⟨hp, hpred⟩ := List.mem_filter.mp hpf
  obtain ⟨hc1, hc2⟩ := hcontract p hp
  have hrev : p.2 = 0 := by
    rcases hsole with hfd | hmask
    · exact hc1 hfd
    · rw [← hc2]
      exact hmask
  have ht : p.1.timeout ≤ now := by
    rcases (okPred_iff now p).mp hpred with h | ⟨_, hor⟩
    · exact h
    · exfalso
      rcases hor with h1 | h1 <;> simp [hrev] at h1
  refine ⟨ht, hrev, ?_, ?_, ?_⟩
  · simp [okException, hrev]
  · simp [poll_until_resume, okException, hrev]
  · simp [wait_until_resume, okException, hrev]

/-- C6 witness: at time 10, an expired pure timer and an expired
descriptor-bound wait with no observed events both resume with empty mask
and no failure. -/
theorem deadline_expiry_not_failure_witness :
    ((⟨⟨0, -1, 0, 5⟩, 0, none⟩ : Resolution).op.timeout ≤ 10 ∧
      (⟨⟨0, -1, 0, 5⟩, 0, none⟩ : Resolution).revents = 0 ∧
      (⟨⟨0, -1, 0, 5⟩, 0, none⟩ : Resolution).exception = none ∧
      poll_until_resume ⟨⟨0, -1, 0, 5⟩, 0, none⟩ = Except.ok 0 ∧
      wait_until_resume ⟨⟨0, -1, 0, 5⟩, 0, none⟩ = Except.ok ()) ∧
    ((⟨⟨1, 4, 1, 5⟩, 0, none⟩ : Resolution).op.timeout ≤ 10 ∧
      (⟨⟨1, 4, 1, 5⟩, 0, none⟩ : Resolution).revents = 0 ∧
      (⟨⟨1, 4, 1, 5⟩, 0, none⟩ : Resolution).exception = none ∧
      poll_until_resume ⟨⟨1, 4, 1, 5⟩, 0, none⟩ = Except.ok 0 ∧
      wait_until_resume ⟨⟨1, 4, 1, 5⟩, 0, none⟩ = Except.ok ()) := by
  have h := deadline_expiry_not_failure 10
    [(⟨0, -1, 0, 5⟩, 0), (⟨1, 4, 1, 5⟩, 0)] (by decide)
  exact ⟨h ⟨⟨0, -1, 0, 5⟩, 0, none⟩ (by decide) (Or.inl (by decide)),
    h ⟨⟨1, 4, 1, 5⟩, 0, none⟩ (by decide) (Or.inr (by decide))⟩

theorem pass_partition (pred : Entry → Bool) (exc : Entry → Option Err)
    (ops : List Entry) (hnodup : (ops.map Prod.fst).Nodup) :
    (((ops.filter pred).map
        (fun p => (⟨p.1, p.2, exc p⟩ : Resolution))).map
          Resolution.op).Sublist (ops.map Prod.fst) ∧
    (ops.filter (fun p => ! pred p)).Sublist ops ∧
    (∀ r ∈ (ops.filter pred).map
        (fun p => (⟨p.1, p.2, exc p⟩ : Resolution)),
      ∀ q ∈ ops.filter (fun p => ! pred p), q.1 ≠ r.op) ∧
    (((ops.filter pred).map
        (fun p => (⟨p.1, p.2, exc p⟩ : Resolution))).map
          Resolution.op).Nodup ∧
    ((ops.filter pred).map
        (fun p => (⟨p.1, p.2, exc p⟩ : Resolution))).length
      + (ops.filter (fun p => ! pred p)).length = ops.length := by
  have hmap : ((ops.filter pred).map
      (fun p => (⟨p.1, p.2, exc p⟩ : Resolution))).map Resolution.op
        = (ops.filter pred).map Prod.fst := by
    rw [List.map_map]
    rfl
  have hsub : ((ops.filter pred).map Prod.fst).Sublist (ops.map Prod.fst) :=
    (List.filter_sublist ops).map Prod.fst
  refine ⟨?_, List.filter_sublist ops, ?_, ?_, ?_⟩
  · rw [hmap]
    exact hsub
  · intro r hr q hq hEq
    rcases List.mem_map.mp hr with ⟨p, hpf, rfl⟩
    obtain ⟨hpo, hpp⟩ := List.mem_filter.mp hpf
    obtain ⟨hqo, hqp⟩ := List.mem_filter.mp hq
    have hq1 : q.1 = p.1 := hEq
    have : q = p := List.inj_on_of_nodup_map hnodup hqo hpo hq1
    rw [this] at hqp
    simp [hpp] at hqp
  · rw [hmap]
    exact List.Nodup.sublist hsub hnodup
  · rw [List.length_map]
    have h := List.length_eq_length_filter_add (l := ops) pred
    omega

/-- C10: within a single pull pass (either syscall outcome), every operation
meeting the resolution predicate is removed from the registry before any
continuation runs: the registry returned alongside the resolutions — the one
a re-entering continuation would observe — contains no resolved operation;
the resolutions are resumed in registration order (an order-preserving
subsequence of the registry); no operation is resolved twice; and resolved
plus remaining partition the registry exactly. -/
theorem pass_removal_before_resumption (now : Int) (pollFailed : Bool)
    (ops : List Entry) (hnodup : (ops.map Prod.fst).Nodup) :
    (((do_pull now pollFailed ops).2.map Resolution.op).Sublist
        (ops.map Prod.fst)) ∧
    ((do_pull now pollFailed ops).1.Sublist ops) ∧
    (∀ r ∈ (do_pull now pollFailed ops).2,
      ∀ q ∈ (do_pull now pollFailed ops).1, q.1 ≠ r.op) ∧
    (((do_pull now pollFailed ops).2.map Resolution.op).Nodup) ∧
    ((do_pull now pollFailed ops).2.length
      + (do_pull now pollFailed ops).1.length = ops.length) := by
  cases pollFailed
  · simp only [do_pull_ok_eq]
    exact pass_partition (okPred now) okException ops hnodup
  · simp only [do_pull_fail_eq]
    exact pass_partition (failPred now) failException ops hnodup

/-- C10 witness: a concrete two-operation pass (one resolved, one kept)
partitions the registry exactly. -/
theorem pass_removal_before_resumption_witness :
    (do_pull 10 false [(⟨0, -1, 0, 5⟩, 0), (⟨1, 2, 1, 50⟩, 0)]).2.length
      + (do_pull 10 false [(⟨0, -1, 0, 5⟩, 0), (⟨1, 2, 1, 50⟩, 0)]).1.length
      = 2 := by
  exact (pass_removal_before_resumption 10 false
    [(⟨0, -1, 0, 5⟩, 0), (⟨1, 2, 1, 50⟩, 0)] (by decide)).2.2.2.2

/-- C5 witness: tearing down a reactor holding three operations (two
descriptor waits and one timer) empties the registry and resumes exactly the
three, in reverse registration order. -/
theorem teardown_resumes_all_witness :
    (io_engine_destroy
      [(⟨0, 3, 1, 100⟩, 0), (⟨1, 4, 1, 100⟩, 0), (⟨2, -1, 0, 50⟩, 0)]).1
        = [] ∧
    (io_engine_destroy
      [(⟨0, 3, 1, 100⟩, 0), (⟨1, 4, 1, 100⟩, 0), (⟨2, -1, 0, 50⟩, 0)]).2.map
        Resolution.op = [⟨2, -1, 0, 50⟩, ⟨1, 4, 1, 100⟩, ⟨0, 3, 1, 100⟩] := by
  have h := teardown_resumes_all
    [(⟨0, 3, 1, 100⟩, 0), (⟨1, 4, 1, 100⟩, 0), (⟨2, -1, 0, 50⟩, 0)]
  exact ⟨h.1, h.2.1⟩

/-- C7 witness: a concrete lazy task with a raising body runs zero times
before awaiting, and the single await runs it once and delivers the failure
once. -/
theorem lazy_failure_propagation_witness :
    (lazyCreate Nat).runs = 0 ∧
    lazyAwait (⟨Except.error (Err.other 3)⟩ : LazyBody Nat) (lazyCreate Nat) 1
      = (⟨1, some (Except.error (Err.other 3)), some 1⟩,
         Except.error (Err.other 3)) := by
  have h := lazy_failure_propagation Nat (Err.other 3) 1 2
    (⟨Except.ok 0⟩ : LazyBody Nat)
  exact ⟨h.1.1, h.2.1⟩

/-- C8 witness: a concrete eager task with no internal suspension completes
at creation, and awaiting it afterwards returns the computed value
immediately with unchanged state. -/
theorem eager_start_policy_witness :
    eagerCreate (⟨0, Except.ok 5⟩ : EagerBody Nat)
      = ⟨true, 1, true, some (Except.ok 5), none⟩ ∧
    eagerAwait (⟨true, 1, true, some (Except.ok 5), none⟩ : EagerState Nat) 9
      = (⟨true, 1, true, some (Except.ok 5), none⟩, some (Except.ok 5)) := by
  have h := eager_start_policy Nat (Except.ok 5) 0 1 9
    (⟨true, 1, true, some (Except.ok 5), none⟩ : EagerState Nat)
  exact ⟨h.1, h.2.2.2 true 1 true none (Except.ok 5)⟩

end CoroAsyncio
